import Mathlib

/-!
Shallow embedding of `screencapture/gstadapter/gst_adapter_macos.go`.

The adapter receives `CMSampleBuffer` values and pushes timestamped buffers
into two GStreamer application sources (video, audio).  The embedding keeps
the two sources as the ordered lists of buffers pushed so far, models Go
slices with their capacity, Go `uint32` arithmetic as `Nat` arithmetic
modulo `2 ^ 32`, and a Go run-time panic as an explicit completion value.
-/

namespace gstadapter

/-! ## Go run-time model -/

/-- Go `[]byte` value.  `data` holds the `len(s)` visible elements and `spare`
the elements of the backing array between `len(s)` and `cap(s)`. -/
structure ByteSlice where
  data : List UInt8
  spare : List UInt8
deriving DecidableEq

namespace ByteSlice

/-- Go `len(s)`. -/
def len (s : ByteSlice) : Nat := s.data.length

/-- Go `cap(s)`. -/
def cap (s : ByteSlice) : Nat := s.data.length + s.spare.length

/-- Go `s[lo:hi]` on a slice: the indices are in range iff
`0 <= lo <= hi <= cap(s)` (the upper bound of a slice expression on a slice is
its capacity, not its length); `none` is the run-time panic. -/
def slice (s : ByteSlice) (lo hi : Nat) : Option ByteSlice :=
  if lo ≤ hi ∧ hi ≤ s.cap then
    some ⟨((s.data ++ s.spare).drop lo).take (hi - lo), (s.data ++ s.spare).drop hi⟩
  else none

/-- Go `s[lo:]`: the omitted high index is `len(s)`, so the expression is in
range iff `lo <= len(s)`; `none` is the run-time panic. -/
def sliceFrom (s : ByteSlice) (lo : Nat) : Option ByteSlice :=
  if lo ≤ s.len then some ⟨s.data.drop lo, s.spare⟩ else none

end ByteSlice

/-- Go builtin `copy(dst, src)`: overwrites the first `min(len(dst), len(src))`
elements of `dst`; the result is the new contents of `dst`. -/
def goCopy (dst src : List UInt8) : List UInt8 :=
  src.take dst.length ++ dst.drop src.length

/-- Go `binary.BigEndian.Uint32(b)`: panics (`none`) when `len(b) < 4`, otherwise
`uint32(b[3]) | uint32(b[2])<<8 | uint32(b[1])<<16 | uint32(b[0])<<24`. -/
def BigEndianUint32 (b : List UInt8) : Option Nat :=
  match b with
  | b0 :: b1 :: b2 :: b3 :: _ =>
    some (b3.toNat ||| b2.toNat <<< 8 ||| b1.toNat <<< 16 ||| b0.toNat <<< 24)
  | _ => none

/-- Go `error` value. -/
structure GoError where
  msg : String
deriving DecidableEq

/-- How a call ends: it returns (with its `error` result), it panics, or the
loop model ran out of fuel. -/
inductive Completion where
  | returned (err : Option GoError)
  | panicked
  | outOfFuel
deriving DecidableEq

/-! ## Collaborators: `coremedia` sample buffers and `gst` buffers -/

/-- Modelled from the spec: `mediaType ∈ {Video, Audio}` of a SampleUnit; the
constants `coremedia.MediaTypeVideo` and `coremedia.MediaTypeSound` are declared
outside this file. -/
inductive MediaType where
  | MediaTypeVideo
  | MediaTypeSound
deriving DecidableEq

/-- The `CMTime` field read by the adapter. -/
structure CMTime where
  CMTimeValue : Nat
deriving DecidableEq

/-- The format description fields read by the adapter. -/
structure FormatDescriptor where
  PPS : List UInt8
  SPS : List UInt8
deriving DecidableEq

/-- Modelled from the spec: the SampleUnit (`coremedia.CMSampleBuffer`), with the
fields `Consume` reads. -/
structure CMSampleBuffer where
  MediaType : MediaType
  OutputPresentationTimestamp : CMTime
  HasFormatDescription : Bool
  FormatDescription : FormatDescriptor
  SampleData : ByteSlice
deriving DecidableEq

/-- A `gst.Buffer`: contents, presentation and decoding timestamps. -/
structure GstBuffer where
  data : List UInt8
  pts : Nat
  dts : Nat
deriving DecidableEq

/-- The call `gst.NewBufferAllocate(n)`: a buffer of `n` bytes. -/
def NewBufferAllocate (n : Nat) : GstBuffer := ⟨List.replicate n 0, 0, 0⟩

/-- The call `b.SetPTS(t)`. -/
def GstBuffer.SetPTS (b : GstBuffer) (t : Nat) : GstBuffer := { b with pts := t }

/-- The call `b.SetDTS(t)`. -/
def GstBuffer.SetDTS (b : GstBuffer) (t : Nat) : GstBuffer := { b with dts := t }

/-- The call `b.FillWithGoSlice(d)`: copies `d` into the buffer memory. -/
def GstBuffer.FillWithGoSlice (b : GstBuffer) (d : List UInt8) : GstBuffer :=
  { b with data := goCopy b.data d }

/-- A `gst.AppSrc`, observed as the buffers pushed into it, oldest first. -/
abbrev AppSrc := List GstBuffer

/-- The call `src.PushBuffer(b)`. -/
def AppSrc.PushBuffer (src : AppSrc) (b : GstBuffer) : AppSrc := src ++ [b]

/-! ## The adapter -/

/-- The `GstAdapter` struct (the pipeline handle plays no part in `Consume`). -/
structure GstAdapter where
  videoAppSrc : AppSrc
  audioAppSrc : AppSrc
  firstAudioSample : Bool
deriving DecidableEq

/-- The adapter built by `New` and `NewWithCustomPipeline`: two fresh sources and
`firstAudioSample: true`. -/
def New : GstAdapter := ⟨[], [], true⟩

/-- The package variable `naluAnnexBMarkerBytes`. -/
def naluAnnexBMarkerBytes : List UInt8 := [0, 0, 0, 1]

/-- The function `prependMarker(nalu, length)`; `length` is a `uint32`, the sum
`length+4` wraps modulo `2 ^ 32`, and `naluWithAnnexBMarker[4:]` panics (`none`)
when the allocated slice is shorter than 4. -/
def prependMarker (nalu : List UInt8) (length : Nat) : Option (List UInt8) :=
  let naluWithAnnexBMarker := List.replicate ((length + 4) % 2 ^ 32) (0 : UInt8)
  let naluWithAnnexBMarker := goCopy naluWithAnnexBMarker naluAnnexBMarkerBytes
  if 4 ≤ naluWithAnnexBMarker.length then
    some (naluWithAnnexBMarker.take 4 ++ goCopy (naluWithAnnexBMarker.drop 4) nalu)
  else none

/-- The method `writeNalu`: one buffer with the unit's timestamp goes to the
video source; the returned error is always `nil`. -/
def writeNalu (gsta : GstAdapter) (naluBytes : List UInt8) (buf : CMSampleBuffer) :
    GstAdapter × Option GoError :=
  let naluLength := naluBytes.length
  let gstBuf := NewBufferAllocate naluLength
  let gstBuf := gstBuf.SetPTS buf.OutputPresentationTimestamp.CMTimeValue
  let gstBuf := gstBuf.SetDTS 0
  let gstBuf := gstBuf.FillWithGoSlice naluBytes
  ({ gsta with videoAppSrc := gsta.videoAppSrc.PushBuffer gstBuf }, none)

/-- The loop of `writeNalus` on the remaining `slice`, one iteration per unit of
fuel. -/
def writeNalusLoop : Nat → GstAdapter → ByteSlice → CMSampleBuffer → GstAdapter × Completion
  | 0, gsta, _, _ => (gsta, Completion.outOfFuel)
  | fuel + 1, gsta, slice, bytes =>
    if slice.len > 0 then
      match BigEndianUint32 slice.data with
      | none => (gsta, Completion.panicked)
      | some length =>
        match slice.slice 4 ((length + 4) % 2 ^ 32) with
        | none => (gsta, Completion.panicked)
        | some nalu =>
          match prependMarker nalu.data length with
          | none => (gsta, Completion.panicked)
          | some framed =>
            match writeNalu gsta framed bytes with
            | (gsta1, some err) => (gsta1, Completion.returned (some err))
            | (gsta1, none) =>
              match slice.sliceFrom ((length + 4) % 2 ^ 32) with
              | none => (gsta1, Completion.panicked)
              | some rest => writeNalusLoop fuel gsta1 rest bytes
    else (gsta, Completion.returned none)

/-- The method `writeNalus`; every iteration that continues drops at least four
bytes, so `len + 1` iterations are enough. -/
def writeNalus (gsta : GstAdapter) (bytes : CMSampleBuffer) : GstAdapter × Completion :=
  writeNalusLoop (bytes.SampleData.len + 1) gsta bytes.SampleData bytes

/-- The method `sendWavHeader`; `GetWavHeaderBytes` is `coremedia.GetWavHeaderBytes`
(its error result is discarded by the caller). -/
def sendWavHeader (GetWavHeaderBytes : Nat → List UInt8) (gsta : GstAdapter) : GstAdapter :=
  let wavData := GetWavHeaderBytes 100
  let sampleLength := wavData.length
  let gstBuf := NewBufferAllocate sampleLength
  let gstBuf := gstBuf.SetPTS 0
  let gstBuf := gstBuf.SetDTS 0
  let gstBuf := gstBuf.FillWithGoSlice wavData
  { gsta with audioAppSrc := gsta.audioAppSrc.PushBuffer gstBuf }

/-- The method `sendAudioSample`. -/
def sendAudioSample (gsta : GstAdapter) (buf : CMSampleBuffer) : GstAdapter × Option GoError :=
  let sampleLength := buf.SampleData.len
  let gstBuf := NewBufferAllocate sampleLength
  let gstBuf := gstBuf.SetPTS buf.OutputPresentationTimestamp.CMTimeValue
  let gstBuf := gstBuf.SetDTS 0
  let gstBuf := gstBuf.FillWithGoSlice buf.SampleData.data
  ({ gsta with audioAppSrc := gsta.audioAppSrc.PushBuffer gstBuf }, none)

/-- The method `Consume`. -/
def Consume (GetWavHeaderBytes : Nat → List UInt8) (gsta : GstAdapter) (buf : CMSampleBuffer) :
    GstAdapter × Completion :=
  if buf.MediaType = MediaType.MediaTypeSound then
    let gsta :=
      if gsta.firstAudioSample then
        sendWavHeader GetWavHeaderBytes { gsta with firstAudioSample := false }
      else gsta
    let r := sendAudioSample gsta buf
    (r.1, Completion.returned r.2)
  else
    let buf :=
      if buf.OutputPresentationTimestamp.CMTimeValue > 17446044073700192000 then
        { buf with OutputPresentationTimestamp := ⟨0⟩ }
      else buf
    if buf.HasFormatDescription then
      let buf := { buf with OutputPresentationTimestamp := ⟨0⟩ }
      match prependMarker buf.FormatDescription.PPS (buf.FormatDescription.PPS.length % 2 ^ 32) with
      | none => (gsta, Completion.panicked)
      | some pps =>
        match writeNalu gsta pps buf with
        | (gsta, some err) => (gsta, Completion.returned (some err))
        | (gsta, none) =>
          match prependMarker buf.FormatDescription.SPS
              (buf.FormatDescription.SPS.length % 2 ^ 32) with
          | none => (gsta, Completion.panicked)
          | some sps =>
            match writeNalu gsta sps buf with
            | (gsta, some err) => (gsta, Completion.returned (some err))
            | (gsta, none) =>
              match writeNalus gsta buf with
              | (gsta, Completion.returned _) => (gsta, Completion.returned none)
              | r => r
    else
      match writeNalus gsta buf with
      | (gsta, Completion.returned _) => (gsta, Completion.returned none)
      | r => r

/-- Feeding a sequence of units by successive `Consume` calls on one adapter.  A
call that panics leaves the adapter as it was at the panic. -/
def consumeAll (GetWavHeaderBytes : Nat → List UInt8) (gsta : GstAdapter) :
    List CMSampleBuffer → GstAdapter
  | [] => gsta
  | buf :: rest => consumeAll GetWavHeaderBytes (Consume GetWavHeaderBytes gsta buf).1 rest

/-! ## Vocabulary of the specification -/

/-- The threshold constant of `Consume`. -/
def sentinel : Nat := 17446044073700192000

/-- The 4-byte big-endian encoding of a length. -/
def putUint32 (n : Nat) : List UInt8 :=
  [UInt8.ofNat (n / 2 ^ 24), UInt8.ofNat (n / 2 ^ 16), UInt8.ofNat (n / 2 ^ 8), UInt8.ofNat n]

/-- The payload made of the records `[4-byte big-endian length][bytes]`. -/
def encodeRecords : List (List UInt8) → List UInt8
  | [] => []
  | b :: bs => putUint32 b.length ++ b ++ encodeRecords bs

/-- The elementary frame of a NAL unit body at a timestamp, as a buffer. -/
def frameBuf (pts : Nat) (b : List UInt8) : GstBuffer := ⟨naluAnnexBMarkerBytes ++ b, pts, 0⟩

/-- The adapter after one more elementary frame reached the video source. -/
def emit (gsta : GstAdapter) (pts : Nat) (b : List UInt8) : GstAdapter :=
  { gsta with videoAppSrc := gsta.videoAppSrc ++ [frameBuf pts b] }

/-- The adapter after the frames of the bodies `bs` reached the video source, in order. -/
def emitAll (gsta : GstAdapter) (pts : Nat) (bs : List (List UInt8)) : GstAdapter :=
  { gsta with videoAppSrc := gsta.videoAppSrc ++ bs.map (frameBuf pts) }

/-- The timestamp `Consume` attaches to the frames of a video unit that has no
format description. -/
def normalizePTS (t : Nat) : Nat := if t > sentinel then 0 else t

/-- The buffers that reached the video source between the adapter states `before`
and `after`. -/
def deliveredVideo (before after : GstAdapter) : List GstBuffer :=
  after.videoAppSrc.drop before.videoAppSrc.length

/-- The buffers that reached the audio source between the adapter states `before`
and `after`. -/
def deliveredAudio (before after : GstAdapter) : List GstBuffer :=
  after.audioAppSrc.drop before.audioAppSrc.length

/-- A stand-in for `coremedia.GetWavHeaderBytes` in concrete runs. -/
def sampleWavHeader : Nat → List UInt8 := fun _ => [0x52, 0x49, 0x46, 0x46]

/-- The payload of the end-to-end scenarios: one record of length 3, `ABC`, in a
slice without spare capacity. -/
def scenarioPayload : ByteSlice := ⟨[0, 0, 0, 3, 0x41, 0x42, 0x43], []⟩

/-- A record body of `2 ^ 32 - 4` bytes: its length still fits the 4-byte length
field, but the `uint32` sum `length+4` wraps to 0. -/
def hugeBody : List UInt8 := List.replicate 4294967292 0

/-- The well-formed payload holding the single record `hugeBody`. -/
def hugePayload : ByteSlice := ⟨encodeRecords [hugeBody], []⟩

/-- The unit `buf` with its presentation timestamp overwritten. -/
def withPTS (buf : CMSampleBuffer) (t : Nat) : CMSampleBuffer :=
  { buf with OutputPresentationTimestamp := ⟨t⟩ }

/-- A video unit without format description. -/
def videoUnit (payload : ByteSlice) (t : Nat) : CMSampleBuffer :=
  ⟨MediaType.MediaTypeVideo, ⟨t⟩, false, ⟨[], []⟩, payload⟩

/-- The adapter after the already framed bytes `f` reached the video source. -/
def emitRaw (gsta : GstAdapter) (pts : Nat) (f : List UInt8) : GstAdapter :=
  { gsta with videoAppSrc := gsta.videoAppSrc ++ [⟨f, pts, 0⟩] }

/-- What `Consume` does with the completion of `writeNalus`: a panic propagates,
a returned error is dropped. -/
def afterWriteNalus (r : GstAdapter × Completion) : GstAdapter × Completion :=
  match r with
  | (g, Completion.returned _) => (g, Completion.returned none)
  | r => r

/-- Scenario A with the timestamp set to the threshold constant itself. -/
def sentinelUnit : CMSampleBuffer := videoUnit scenarioPayload sentinel

/-- Scenario B at timestamp `t`: format description with `sps = S`, `pps = P`. -/
def scenarioFdUnit (t : Nat) : CMSampleBuffer :=
  ⟨MediaType.MediaTypeVideo, ⟨t⟩, true, ⟨[0x50], [0x53]⟩, scenarioPayload⟩

/-- The unit `scenarioFdUnit` with the huge well-formed payload. -/
def hugeFdUnit : CMSampleBuffer :=
  ⟨MediaType.MediaTypeVideo, ⟨sentinel⟩, true, ⟨[0x50], [0x53]⟩, hugePayload⟩

/-- The unit `buf` with its `HasFormatDescription` flag set to `b`. -/
def withHasFormatDescription (buf : CMSampleBuffer) (b : Bool) : CMSampleBuffer :=
  { buf with HasFormatDescription := b }

/-- An audio unit with payload `p` (in a slice with spare capacity `spare`) and
timestamp `t`. -/
def audioUnit (p spare : List UInt8) (t : Nat) : CMSampleBuffer :=
  ⟨MediaType.MediaTypeSound, ⟨t⟩, false, ⟨[], []⟩, ⟨p, spare⟩⟩

/-- Whether a unit is an audio unit. -/
def isSound (u : CMSampleBuffer) : Bool := decide (u.MediaType = MediaType.MediaTypeSound)

/-- The buffer `sendWavHeader` pushes: the WAV header at timestamp 0. -/
def wavHeaderBuf (GetWavHeaderBytes : Nat → List UInt8) : GstBuffer :=
  ⟨GetWavHeaderBytes 100, 0, 0⟩

/-- The buffer `sendAudioSample` pushes for a unit: its payload, unmodified, at the
unit's own timestamp. -/
def audioBuf (u : CMSampleBuffer) : GstBuffer :=
  ⟨u.SampleData.data, u.OutputPresentationTimestamp.CMTimeValue, 0⟩

/-- Stripping the 4-byte marker `00 00 00 01` from a frame; `none` when the frame
does not start with it. -/
def stripMarker (frame : List UInt8) : Option (List UInt8) :=
  if frame.take 4 = naluAnnexBMarkerBytes then some (frame.drop 4) else none

/-- The inverse direction of the round-trip law: strip the marker of every frame,
put the 4-byte big-endian length of the remaining body in front of it, and
concatenate in emission order. -/
def reassemble : List (List UInt8) → Option (List UInt8)
  | [] => some []
  | frame :: frames =>
    match stripMarker frame, reassemble frames with
    | some body, some rest => some (putUint32 body.length ++ body ++ rest)
    | _, _ => none

/-- A payload whose single record declares 5 bytes while 1 byte follows. -/
def truncatedPayload : ByteSlice := ⟨[0, 0, 0, 5, 1], []⟩

/-- A payload of 5 bytes, declaring a record of 2 bytes of which 1 is present, in
a slice of capacity 6 whose backing array goes on with the byte `BB`. -/
def overhangPayload : ByteSlice := ⟨[0, 0, 0, 2, 0xAA], [0xBB]⟩

/-- The buffers `Consume` pushes for the format description of a video unit before
it turns to the payload, and whether it gets as far as the payload (`false`: a
`prependMarker` call panicked).  Without format description there is none. -/
def parameterSetBuffers (buf : CMSampleBuffer) : List GstBuffer × Bool :=
  if buf.HasFormatDescription then
    match prependMarker buf.FormatDescription.PPS (buf.FormatDescription.PPS.length % 2 ^ 32) with
    | none => ([], false)
    | some pps =>
      match prependMarker buf.FormatDescription.SPS
          (buf.FormatDescription.SPS.length % 2 ^ 32) with
      | none => ([⟨pps, 0, 0⟩], false)
      | some sps => ([⟨pps, 0, 0⟩, ⟨sps, 0, 0⟩], true)
  else ([], true)

/-- A video unit with format description (`sps = S`, `pps = P`) at timestamp 100
whose payload holds the record `09` and then a record that declares 5 bytes while
1 byte follows. -/
def truncatedFdUnit : CMSampleBuffer :=
  ⟨MediaType.MediaTypeVideo, ⟨100⟩, true, ⟨[0x50], [0x53]⟩,
    ⟨[0, 0, 0, 1, 0x09, 0, 0, 0, 5, 1], []⟩⟩

end gstadapter


namespace gstadapter

/-! ## Byte-level lemmas -/

theorem toNat_ofNat8 (k : Nat) : (UInt8.ofNat k).toNat = k % 256 := rfl

theorem ofNat8_eq (b : UInt8) (k : Nat) (h : k % 256 = b.toNat) : UInt8.ofNat k = b := by
  apply UInt8.ext
  rw [toNat_ofNat8]
  exact h

theorem be_arith (b0 b1 b2 b3 : UInt8) :
    (b3.toNat ||| b2.toNat <<< 8 ||| b1.toNat <<< 16 ||| b0.toNat <<< 24)
      = b0.toNat * 2 ^ 24 + b1.toNat * 2 ^ 16 + b2.toNat * 2 ^ 8 + b3.toNat := by
  have h1 := b1.toNat_lt
  have h2 := b2.toNat_lt
  have h3 := b3.toNat_lt
  simp only [Nat.shiftLeft_eq]
  have e1 : b3.toNat ||| b2.toNat * 2 ^ 8 = 2 ^ 8 * b2.toNat + b3.toNat := by
    rw [Nat.lor_comm, Nat.mul_comm, Nat.mul_add_lt_is_or h3]
  have l1 : 2 ^ 8 * b2.toNat + b3.toNat < 2 ^ 16 := by omega
  have e2 : (2 ^ 8 * b2.toNat + b3.toNat) ||| b1.toNat * 2 ^ 16
      = 2 ^ 16 * b1.toNat + (2 ^ 8 * b2.toNat + b3.toNat) := by
    rw [Nat.lor_comm, Nat.mul_comm, Nat.mul_add_lt_is_or l1]
  have l2 : 2 ^ 16 * b1.toNat + (2 ^ 8 * b2.toNat + b3.toNat) < 2 ^ 24 := by omega
  have e3 : (2 ^ 16 * b1.toNat + (2 ^ 8 * b2.toNat + b3.toNat)) ||| b0.toNat * 2 ^ 24
      = 2 ^ 24 * b0.toNat + (2 ^ 16 * b1.toNat + (2 ^ 8 * b2.toNat + b3.toNat)) := by
    rw [Nat.lor_comm, Nat.mul_comm, Nat.mul_add_lt_is_or l2]
  rw [e1, e2, e3]; omega

theorem BigEndianUint32_cons4 (b0 b1 b2 b3 : UInt8) (rest : List UInt8) :
    BigEndianUint32 (b0 :: b1 :: b2 :: b3 :: rest)
      = some (b0.toNat * 2 ^ 24 + b1.toNat * 2 ^ 16 + b2.toNat * 2 ^ 8 + b3.toNat) := by
  simp only [BigEndianUint32, be_arith]

theorem BigEndianUint32_lt (b : List UInt8) (n : Nat) (h : BigEndianUint32 b = some n) :
    n < 2 ^ 32 := by
  match b, h with
  | b0 :: b1 :: b2 :: b3 :: rest, h =>
    rw [BigEndianUint32_cons4] at h
    have h0 := b0.toNat_lt
    have h1 := b1.toNat_lt
    have h2 := b2.toNat_lt
    have h3 := b3.toNat_lt
    simp only [Option.some.injEq] at h
    omega

theorem BigEndianUint32_none (b : List UInt8) (h : b.length < 4) : BigEndianUint32 b = none := by
  match b, h with
  | [], _ => rfl
  | [_], _ => rfl
  | [_, _], _ => rfl
  | [_, _, _], _ => rfl
  | _ :: _ :: _ :: _ :: _, h => simp at h; omega

theorem putUint32_length (n : Nat) : (putUint32 n).length = 4 := rfl

theorem BigEndianUint32_putUint32 (n : Nat) (h : n < 2 ^ 32) (rest : List UInt8) :
    BigEndianUint32 (putUint32 n ++ rest) = some n := by
  simp only [putUint32, List.cons_append, List.nil_append, BigEndianUint32_cons4, toNat_ofNat8,
    Option.some.injEq]
  omega

theorem putUint32_of_BigEndianUint32 (b0 b1 b2 b3 : UInt8) (rest : List UInt8) (n : Nat)
    (h : BigEndianUint32 (b0 :: b1 :: b2 :: b3 :: rest) = some n) :
    putUint32 n = [b0, b1, b2, b3] := by
  rw [BigEndianUint32_cons4] at h
  simp only [Option.some.injEq] at h
  have h0 := b0.toNat_lt
  have h1 := b1.toNat_lt
  have h2 := b2.toNat_lt
  have h3 := b3.toNat_lt
  subst h
  simp only [putUint32, List.cons.injEq, and_true]
  refine ⟨?_, ?_, ?_, ?_⟩ <;> apply ofNat8_eq <;> omega

/-! ## Collaborator lemmas -/

theorem goCopy_same_length (dst src : List UInt8) (h : dst.length = src.length) :
    goCopy dst src = src := by
  simp [goCopy, h]

theorem prependMarker_exact (nalu : List UInt8) (h : nalu.length + 4 < 2 ^ 32) :
    prependMarker nalu nalu.length = some (naluAnnexBMarkerBytes ++ nalu) := by
  have hm : (nalu.length + 4) % 2 ^ 32 = nalu.length + 4 := Nat.mod_eq_of_lt h
  simp only [prependMarker, hm]
  have e : goCopy (List.replicate (nalu.length + 4) (0 : UInt8)) naluAnnexBMarkerBytes
      = naluAnnexBMarkerBytes ++ List.replicate nalu.length (0 : UInt8) := by
    simp [goCopy, naluAnnexBMarkerBytes, List.replicate_succ]
  rw [e]
  have l4 : naluAnnexBMarkerBytes.length = 4 := rfl
  simp only [List.length_append, l4, List.length_replicate]
  rw [if_pos (by omega)]
  rw [List.take_left' l4, List.drop_left' l4]
  rw [goCopy_same_length _ _ (by simp)]

theorem writeNalu_eq (gsta : GstAdapter) (naluBytes : List UInt8) (buf : CMSampleBuffer) :
    writeNalu gsta naluBytes buf
      = ({ gsta with videoAppSrc := gsta.videoAppSrc ++
            [⟨naluBytes, buf.OutputPresentationTimestamp.CMTimeValue, 0⟩] }, none) := by
  simp [writeNalu, NewBufferAllocate, GstBuffer.SetPTS, GstBuffer.SetDTS,
    GstBuffer.FillWithGoSlice, AppSrc.PushBuffer, goCopy_same_length]

end gstadapter

namespace gstadapter

theorem prependMarker_of_length (nalu : List UInt8) (L : Nat) (hl : nalu.length = L)
    (h : L + 4 < 2 ^ 32) : prependMarker nalu L = some (naluAnnexBMarkerBytes ++ nalu) := by
  subst hl
  exact prependMarker_exact nalu h

theorem emitAll_nil (gsta : GstAdapter) (pts : Nat) : emitAll gsta pts [] = gsta := by
  simp [emitAll]

theorem emitAll_cons (gsta : GstAdapter) (pts : Nat) (b : List UInt8) (bs : List (List UInt8)) :
    emitAll gsta pts (b :: bs) = emitAll (emit gsta pts b) pts bs := by
  simp [emitAll, emit]

theorem writeNalusLoop_succ (fuel : Nat) (gsta : GstAdapter) (d spare : List UInt8)
    (buf : CMSampleBuffer) (L : Nat) (hL : BigEndianUint32 d = some L) :
    writeNalusLoop (fuel + 1) gsta ⟨d, spare⟩ buf =
      if L + 4 < 2 ^ 32 ∧ L + 4 ≤ d.length + spare.length then
        if L + 4 ≤ d.length then
          writeNalusLoop fuel
            (emit gsta buf.OutputPresentationTimestamp.CMTimeValue ((d.drop 4).take L))
            ⟨d.drop (L + 4), spare⟩ buf
        else
          (emit gsta buf.OutputPresentationTimestamp.CMTimeValue (((d ++ spare).drop 4).take L),
            Completion.panicked)
      else (gsta, Completion.panicked) := by
  have hlen : 4 ≤ d.length := by
    by_contra hc
    rw [BigEndianUint32_none d (by omega)] at hL
    exact Option.noConfusion hL
  have hLlt : L < 2 ^ 32 := BigEndianUint32_lt d L hL
  rw [writeNalusLoop]
  simp only [ByteSlice.len, hL]
  rw [if_pos (by omega)]
  by_cases hc : L + 4 < 2 ^ 32 ∧ L + 4 ≤ d.length + spare.length
  · rw [if_pos hc]
    have hm : (L + 4) % 2 ^ 32 = L + 4 := Nat.mod_eq_of_lt hc.1
    have hs : ByteSlice.slice ⟨d, spare⟩ 4 (L + 4)
        = some ⟨((d ++ spare).drop 4).take L, (d ++ spare).drop (L + 4)⟩ := by
      simp only [ByteSlice.slice, ByteSlice.cap]
      rw [if_pos ⟨by omega, hc.2⟩]
      simp
    have hnl : (((d ++ spare).drop 4).take L).length = L := by
      simp only [List.length_take, List.length_drop, List.length_append]
      omega
    simp only [hm, hs, prependMarker_of_length _ L hnl hc.1, writeNalu_eq]
    by_cases hd : L + 4 ≤ d.length
    · have hb : ((d ++ spare).drop 4).take L = (d.drop 4).take L := by
        rw [List.drop_append_of_le_length (by omega)]
        rw [List.take_append_of_le_length (by simp only [List.length_drop]; omega)]
      simp only [ByteSlice.sliceFrom, ByteSlice.len, if_pos hd, hb, emit, frameBuf]
    · simp only [ByteSlice.sliceFrom, ByteSlice.len, if_neg hd, emit, frameBuf]
  · rw [if_neg hc]
    have hs : ByteSlice.slice ⟨d, spare⟩ 4 ((L + 4) % 2 ^ 32) = none := by
      simp only [ByteSlice.slice, ByteSlice.cap]
      rw [if_neg]
      intro hh
      apply hc
      by_cases hw : L + 4 < 2 ^ 32
      · rw [Nat.mod_eq_of_lt hw] at hh
        exact ⟨hw, hh.2⟩
      · omega
    simp only [hs]

end gstadapter

namespace gstadapter

theorem writeNalusLoop_nil (fuel : Nat) (gsta : GstAdapter) (spare : List UInt8)
    (buf : CMSampleBuffer) :
    writeNalusLoop (fuel + 1) gsta ⟨[], spare⟩ buf = (gsta, Completion.returned none) := by
  rw [writeNalusLoop]
  simp [ByteSlice.len]

theorem writeNalusLoop_short (fuel : Nat) (gsta : GstAdapter) (d spare : List UInt8)
    (buf : CMSampleBuffer) (h0 : 0 < d.length) (h4 : d.length < 4) :
    writeNalusLoop (fuel + 1) gsta ⟨d, spare⟩ buf = (gsta, Completion.panicked) := by
  rw [writeNalusLoop]
  simp only [ByteSlice.len, BigEndianUint32_none d h4]
  rw [if_pos h0]

theorem encodeRecords_length_ge (bs : List (List UInt8)) :
    4 * bs.length ≤ (encodeRecords bs).length := by
  induction bs with
  | nil => simp [encodeRecords]
  | cons b bs ih =>
    simp only [encodeRecords, List.length_append, putUint32_length, List.length_cons]
    omega

theorem writeNalusLoop_record (fuel : Nat) (gsta : GstAdapter) (b rest spare : List UInt8)
    (buf : CMSampleBuffer) (hb : b.length + 4 < 2 ^ 32) :
    writeNalusLoop (fuel + 1) gsta ⟨putUint32 b.length ++ b ++ rest, spare⟩ buf =
      writeNalusLoop fuel (emit gsta buf.OutputPresentationTimestamp.CMTimeValue b)
        ⟨rest, spare⟩ buf := by
  have hL : BigEndianUint32 (putUint32 b.length ++ b ++ rest) = some b.length := by
    rw [List.append_assoc]
    exact BigEndianUint32_putUint32 _ (by omega) _
  rw [writeNalusLoop_succ fuel gsta _ spare buf b.length hL]
  have hlen : (putUint32 b.length ++ b ++ rest).length = 4 + b.length + rest.length := by
    simp only [List.length_append, putUint32_length]
  rw [if_pos ⟨hb, by omega⟩, if_pos (by omega)]
  have h1 : ((putUint32 b.length ++ b ++ rest).drop 4).take b.length = b := by
    rw [List.append_assoc, List.drop_left' (putUint32_length _), List.take_left' rfl]
  have h2 : (putUint32 b.length ++ b ++ rest).drop (b.length + 4) = rest := by
    apply List.drop_left'
    simp only [List.length_append, putUint32_length]
    omega
  rw [h1, h2]

theorem writeNalusLoop_records (bs : List (List UInt8)) (hbs : ∀ b ∈ bs, b.length + 4 < 2 ^ 32)
    (fuel : Nat) (gsta : GstAdapter) (rest spare : List UInt8) (buf : CMSampleBuffer) :
    writeNalusLoop (bs.length + fuel) gsta ⟨encodeRecords bs ++ rest, spare⟩ buf =
      writeNalusLoop fuel (emitAll gsta buf.OutputPresentationTimestamp.CMTimeValue bs)
        ⟨rest, spare⟩ buf := by
  induction bs generalizing gsta with
  | nil => simp [encodeRecords, emitAll_nil]
  | cons b bs ih =>
    have e : (b :: bs).length + fuel = (bs.length + fuel) + 1 := by
      simp only [List.length_cons]; omega
    rw [e, emitAll_cons]
    simp only [encodeRecords, List.append_assoc]
    rw [← List.append_assoc (putUint32 b.length)]
    rw [writeNalusLoop_record _ _ _ _ _ _ (hbs b (List.mem_cons_self b bs))]
    exact ih (fun x hx => hbs x (List.mem_cons_of_mem b hx)) _

theorem writeNalusLoop_ne_outOfFuel (fuel : Nat) (gsta : GstAdapter) (d spare : List UInt8)
    (buf : CMSampleBuffer) (h : d.length < fuel) :
    (writeNalusLoop fuel gsta ⟨d, spare⟩ buf).2 ≠ Completion.outOfFuel := by
  induction fuel generalizing gsta d with
  | zero => omega
  | succ fuel ih =>
    cases hL : BigEndianUint32 d with
    | none =>
      rw [writeNalusLoop]
      simp only [hL]
      split <;> simp
    | some L =>
      rw [writeNalusLoop_succ fuel gsta d spare buf L hL]
      split
      · split
        · apply ih
          simp only [List.length_drop]
          omega
        · simp
      · simp

theorem writeNalusLoop_emits (fuel : Nat) (gsta : GstAdapter) (d spare : List UInt8)
    (buf : CMSampleBuffer) :
    ∃ bs tail, (∀ b ∈ bs, b.length + 4 < 2 ^ 32) ∧ d ++ spare = encodeRecords bs ++ tail ∧
      (writeNalusLoop fuel gsta ⟨d, spare⟩ buf).1
        = emitAll gsta buf.OutputPresentationTimestamp.CMTimeValue bs := by
  induction fuel generalizing gsta d with
  | zero => exact ⟨[], d ++ spare, by simp, by simp [encodeRecords], by simp [writeNalusLoop, emitAll_nil]⟩
  | succ fuel ih =>
    have stop : ∀ c : Completion, ∃ bs tail, (∀ b ∈ bs, b.length + 4 < 2 ^ 32) ∧
        d ++ spare = encodeRecords bs ++ tail ∧
        (gsta, c).1 = emitAll gsta buf.OutputPresentationTimestamp.CMTimeValue bs :=
      fun c => ⟨[], d ++ spare, by simp, by simp [encodeRecords], by simp [emitAll_nil]⟩
    cases hL : BigEndianUint32 d with
    | none =>
      rw [writeNalusLoop]
      simp only [hL]
      split
      · exact stop _
      · exact stop _
    | some L =>
      rw [writeNalusLoop_succ fuel gsta d spare buf L hL]
      match d, hL with
      | b0 :: b1 :: b2 :: b3 :: r, hL =>
        have hput := putUint32_of_BigEndianUint32 b0 b1 b2 b3 r L hL
        split
        next hc =>
          have hsplit : (b0 :: b1 :: b2 :: b3 :: r) ++ spare
              = putUint32 L ++ ((r ++ spare).take L) ++ (r ++ spare).drop L := by
            rw [hput, List.append_assoc, List.take_append_drop]
            rfl
          have hbl : ((r ++ spare).take L).length = L := by
            simp only [List.length_take, List.length_append]
            simp only [List.length_cons] at hc
            omega
          split
          next hd =>
            simp only [List.length_cons] at hd
            obtain ⟨bs, tail, h1, h2, h3⟩ :=
              ih (emit gsta buf.OutputPresentationTimestamp.CMTimeValue
                (((b0 :: b1 :: b2 :: b3 :: r).drop 4).take L))
                ((b0 :: b1 :: b2 :: b3 :: r).drop (L + 4))
            have hr : ((b0 :: b1 :: b2 :: b3 :: r).drop 4).take L = (r ++ spare).take L := by
              simp only [List.drop_succ_cons, List.drop_zero]
              rw [List.take_append_of_le_length (by omega)]
            have hr2 : (b0 :: b1 :: b2 :: b3 :: r).drop (L + 4) ++ spare = (r ++ spare).drop L := by
              simp only [List.drop_succ_cons]
              rw [List.drop_append_of_le_length (by omega)]
            refine ⟨((r ++ spare).take L) :: bs, tail, ?_, ?_, ?_⟩
            · intro b hb
              rcases List.mem_cons.mp hb with rfl | hb
              · rw [hbl]; exact hc.1
              · exact h1 b hb
            · rw [hsplit, ← hr2, h2]
              simp only [encodeRecords, hbl, List.append_assoc]
            · rw [h3, emitAll_cons, hr]
          next hd =>
            refine ⟨[(r ++ spare).take L], (r ++ spare).drop L, ?_, ?_, ?_⟩
            · intro b hb
              rw [List.mem_singleton.mp hb, hbl]
              exact hc.1
            · rw [hsplit]
              simp only [encodeRecords, hbl, List.append_nil]
            · simp only [emitAll_cons, emitAll_nil]
              rfl
        next hc => exact stop _

end gstadapter

namespace gstadapter

theorem writeNalus_records_then (gsta : GstAdapter) (buf : CMSampleBuffer)
    (bs : List (List UInt8)) (rest : List UInt8)
    (hp : buf.SampleData.data = encodeRecords bs ++ rest)
    (hb : ∀ b ∈ bs, b.length + 4 < 2 ^ 32) :
    ∃ k, writeNalus gsta buf =
      writeNalusLoop (k + 1) (emitAll gsta buf.OutputPresentationTimestamp.CMTimeValue bs)
        ⟨rest, buf.SampleData.spare⟩ buf := by
  have hlen := encodeRecords_length_ge bs
  refine ⟨(encodeRecords bs ++ rest).length - bs.length, ?_⟩
  have hs : buf.SampleData = ⟨encodeRecords bs ++ rest, buf.SampleData.spare⟩ := by
    cases hsd : buf.SampleData with
    | mk d s => rw [hsd] at hp; simp only at hp; rw [hp]
  have hf : buf.SampleData.len + 1
      = bs.length + ((encodeRecords bs ++ rest).length - bs.length + 1) := by
    simp only [ByteSlice.len, hp, List.length_append]
    omega
  rw [writeNalus, hf, hs]
  exact writeNalusLoop_records bs hb _ gsta rest _ buf

theorem writeNalus_records (gsta : GstAdapter) (buf : CMSampleBuffer)
    (bs : List (List UInt8)) (hp : buf.SampleData.data = encodeRecords bs)
    (hb : ∀ b ∈ bs, b.length + 4 < 2 ^ 32) :
    writeNalus gsta buf =
      (emitAll gsta buf.OutputPresentationTimestamp.CMTimeValue bs, Completion.returned none) := by
  obtain ⟨k, hk⟩ := writeNalus_records_then gsta buf bs [] (by simpa using hp) hb
  rw [hk, writeNalusLoop_nil]

theorem writeNalus_total (gsta : GstAdapter) (buf : CMSampleBuffer) :
    (writeNalus gsta buf).2 ≠ Completion.outOfFuel := by
  rw [writeNalus]
  exact writeNalusLoop_ne_outOfFuel _ gsta _ _ buf (by simp [ByteSlice.len])

theorem writeNalus_emits (gsta : GstAdapter) (buf : CMSampleBuffer) :
    ∃ bs tail, (∀ b ∈ bs, b.length + 4 < 2 ^ 32) ∧
      buf.SampleData.data ++ buf.SampleData.spare = encodeRecords bs ++ tail ∧
      (writeNalus gsta buf).1 = emitAll gsta buf.OutputPresentationTimestamp.CMTimeValue bs := by
  rw [writeNalus]
  exact writeNalusLoop_emits _ gsta _ _ buf

theorem deliveredVideo_emitAll (gsta : GstAdapter) (pts : Nat) (bs : List (List UInt8)) :
    deliveredVideo gsta (emitAll gsta pts bs) = bs.map (frameBuf pts) := by
  simp [deliveredVideo, emitAll]

theorem deliveredAudio_emitAll (gsta : GstAdapter) (pts : Nat) (bs : List (List UInt8)) :
    deliveredAudio gsta (emitAll gsta pts bs) = [] := by
  simp [deliveredAudio, emitAll]

/-- The shape of `Consume` on a unit that is not sound and has no format
description: the timestamp is normalised, then the payload is reframed. -/
theorem Consume_video_plain (wav : Nat → List UInt8) (gsta : GstAdapter) (buf : CMSampleBuffer)
    (hm : buf.MediaType = MediaType.MediaTypeVideo) (hf : buf.HasFormatDescription = false) :
    Consume wav gsta buf =
      afterWriteNalus
        (writeNalus gsta (withPTS buf (normalizePTS buf.OutputPresentationTimestamp.CMTimeValue))) := by
  obtain ⟨m, ⟨t⟩, f, fd, sd⟩ := buf
  simp only at hm hf
  subst hm hf
  simp only [Consume, normalizePTS, sentinel, withPTS, afterWriteNalus]
  rw [if_neg (by decide)]
  by_cases h : t > 17446044073700192000
  · simp [h]
  · simp [h]

end gstadapter

namespace gstadapter

theorem writeNalus_wrap (gsta : GstAdapter) (buf : CMSampleBuffer) (L : Nat) (rest : List UInt8)
    (hp : buf.SampleData.data = putUint32 L ++ rest) (hL : L < 2 ^ 32) (hw : 2 ^ 32 ≤ L + 4) :
    writeNalus gsta buf = (gsta, Completion.panicked) := by
  have hd : BigEndianUint32 buf.SampleData.data = some L := by
    rw [hp]; exact BigEndianUint32_putUint32 L hL rest
  rw [writeNalus]
  cases hsd : buf.SampleData with
  | mk d s =>
    rw [hsd] at hd
    rw [writeNalusLoop_succ _ gsta d s buf L hd, if_neg (by omega)]

theorem hugeBody_length : hugeBody.length = 4294967292 :=
  List.length_replicate 4294967292 (0 : UInt8)

theorem hugePayload_data : hugePayload.data = putUint32 4294967292 ++ (hugeBody ++ []) := by
  simp only [hugePayload, encodeRecords, hugeBody_length, List.append_assoc]

theorem Consume_video_plain_wrap (wav : Nat → List UInt8) (gsta : GstAdapter)
    (buf : CMSampleBuffer) (L : Nat) (rest : List UInt8)
    (hm : buf.MediaType = MediaType.MediaTypeVideo) (hf : buf.HasFormatDescription = false)
    (hp : buf.SampleData.data = putUint32 L ++ rest) (hL : L < 2 ^ 32) (hw : 2 ^ 32 ≤ L + 4) :
    Consume wav gsta buf = (gsta, Completion.panicked) := by
  rw [Consume_video_plain wav gsta buf hm hf, writeNalus_wrap gsta
    (withPTS buf (normalizePTS buf.OutputPresentationTimestamp.CMTimeValue)) L rest hp hL hw]
  rfl

theorem normalizePTS_of_le (t : Nat) (h : t ≤ sentinel) : normalizePTS t = t := by
  simp only [normalizePTS]
  rw [if_neg (by omega)]

theorem normalizePTS_of_gt (t : Nat) (h : sentinel < t) : normalizePTS t = 0 := by
  simp only [normalizePTS]
  rw [if_pos h]

theorem Consume_video_plain_records (wav : Nat → List UInt8) (gsta : GstAdapter)
    (buf : CMSampleBuffer) (bs : List (List UInt8))
    (hm : buf.MediaType = MediaType.MediaTypeVideo) (hf : buf.HasFormatDescription = false)
    (hp : buf.SampleData.data = encodeRecords bs) (hb : ∀ b ∈ bs, b.length + 4 < 2 ^ 32) :
    Consume wav gsta buf =
      (emitAll gsta (normalizePTS buf.OutputPresentationTimestamp.CMTimeValue) bs,
        Completion.returned none) := by
  rw [Consume_video_plain wav gsta buf hm hf, writeNalus_records gsta
    (withPTS buf (normalizePTS buf.OutputPresentationTimestamp.CMTimeValue)) bs hp hb]
  rfl

/-- C1 (amended): a video unit without format description whose payload is the
concatenation of the records `[4-byte big-endian length][bytes]` of the bodies `bs`,
each body shorter than `2 ^ 32 - 4` bytes, and whose timestamp `t` is below the
threshold: `Consume` returns without error, the video source receives exactly the
buffers `00 00 00 01 ++ b` in order, each with presentation timestamp `t`, and the
audio source and the first-audio flag are untouched. -/
theorem C1_plain_video_unit_reframed (wav : Nat → List UInt8) (gsta : GstAdapter)
    (buf : CMSampleBuffer) (bs : List (List UInt8))
    (hm : buf.MediaType = MediaType.MediaTypeVideo) (hf : buf.HasFormatDescription = false)
    (hp : buf.SampleData.data = encodeRecords bs)
    (hb : ∀ b ∈ bs, b.length < 2 ^ 32 - 4)
    (ht : buf.OutputPresentationTimestamp.CMTimeValue < sentinel) :
    Consume wav gsta buf =
      ({ gsta with videoAppSrc := (gsta.videoAppSrc ++
          bs.map (fun b => ⟨[0, 0, 0, 1] ++ b, buf.OutputPresentationTimestamp.CMTimeValue, 0⟩)) },
        Completion.returned none) := by
  rw [Consume_video_plain_records wav gsta buf bs hm hf hp (fun b h => by have := hb b h; omega),
    normalizePTS_of_le _ (Nat.le_of_lt ht)]
  rfl

/-- C1 at scenario A: payload `00 00 00 03 41 42 43` at timestamp 100. -/
theorem C1_plain_video_unit_reframed_witness :
    Consume sampleWavHeader New (videoUnit scenarioPayload 100) =
      ({ New with videoAppSrc := (New.videoAppSrc ++
          [[0x41, 0x42, 0x43]].map (fun b => ⟨[0, 0, 0, 1] ++ b,
            (videoUnit scenarioPayload 100).OutputPresentationTimestamp.CMTimeValue, 0⟩)) },
        Completion.returned none) :=
  C1_plain_video_unit_reframed sampleWavHeader New (videoUnit scenarioPayload 100)
    [[0x41, 0x42, 0x43]] rfl rfl (by decide) (by decide) (by decide)

/-- C1 as stated fails: the payload holding one record of `2 ^ 32 - 4` bytes is
well formed and its timestamp 100 is below the threshold, yet `Consume` panics and
the video source receives nothing instead of the frame of that record. -/
theorem C1_huge_record_counterexample :
    hugePayload.data = encodeRecords [hugeBody] ∧ hugeBody.length < 2 ^ 32 ∧ 100 < sentinel ∧
    Consume sampleWavHeader New (videoUnit hugePayload 100) = (New, Completion.panicked) ∧
    Consume sampleWavHeader New (videoUnit hugePayload 100) ≠
      ({ New with videoAppSrc := (New.videoAppSrc ++
          [hugeBody].map (fun b => ⟨[0, 0, 0, 1] ++ b, 100, 0⟩)) }, Completion.returned none) := by
  have h : Consume sampleWavHeader New (videoUnit hugePayload 100) = (New, Completion.panicked) :=
    Consume_video_plain_wrap sampleWavHeader New (videoUnit hugePayload 100) 4294967292
      (hugeBody ++ []) rfl rfl hugePayload_data (by decide) (by decide)
  refine ⟨rfl, by rw [hugeBody_length]; decide, by decide, h, ?_⟩
  rw [h]
  intro hc
  exact Completion.noConfusion (congrArg Prod.snd hc)

end gstadapter

namespace gstadapter

theorem afterWriteNalus_fst (r : GstAdapter × Completion) : (afterWriteNalus r).1 = r.1 := by
  obtain ⟨g, c⟩ := r
  cases c <;> rfl

theorem Consume_video_fd (wav : Nat → List UInt8) (gsta : GstAdapter) (buf : CMSampleBuffer)
    (hm : buf.MediaType = MediaType.MediaTypeVideo) (hf : buf.HasFormatDescription = true) :
    Consume wav gsta buf =
      match prependMarker buf.FormatDescription.PPS (buf.FormatDescription.PPS.length % 2 ^ 32) with
      | none => (gsta, Completion.panicked)
      | some pps =>
        match prependMarker buf.FormatDescription.SPS
            (buf.FormatDescription.SPS.length % 2 ^ 32) with
        | none => (emitRaw gsta 0 pps, Completion.panicked)
        | some sps =>
          afterWriteNalus (writeNalus (emitRaw (emitRaw gsta 0 pps) 0 sps) (withPTS buf 0)) := by
  obtain ⟨m, ⟨t⟩, f, fd, sd⟩ := buf
  simp only at hm hf
  subst hm hf
  simp only [Consume, withPTS, afterWriteNalus, writeNalu_eq, emitRaw]
  rw [if_neg (by decide)]
  by_cases h : t > 17446044073700192000
  · simp only [h, if_true]
  · simp only [h, if_false]
    cases prependMarker fd.PPS (fd.PPS.length % 2 ^ 32) with
    | none => rfl
    | some pps =>
      cases prependMarker fd.SPS (fd.SPS.length % 2 ^ 32) with
      | none => rfl
      | some sps => rfl

end gstadapter

namespace gstadapter

theorem deliveredVideo_of_append (g g1 : GstAdapter) (l : List GstBuffer)
    (h : g1.videoAppSrc = g.videoAppSrc ++ l) : deliveredVideo g g1 = l := by
  simp [deliveredVideo, h]

theorem Consume_video_plain_pts (wav : Nat → List UInt8) (gsta : GstAdapter)
    (buf : CMSampleBuffer) (hm : buf.MediaType = MediaType.MediaTypeVideo)
    (hf : buf.HasFormatDescription = false) :
    ∀ x ∈ deliveredVideo gsta (Consume wav gsta buf).1,
      x.pts = normalizePTS buf.OutputPresentationTimestamp.CMTimeValue := by
  rw [Consume_video_plain wav gsta buf hm hf, afterWriteNalus_fst]
  obtain ⟨bs, tail, -, -, h3⟩ := writeNalus_emits gsta
    (withPTS buf (normalizePTS buf.OutputPresentationTimestamp.CMTimeValue))
  rw [h3, deliveredVideo_emitAll]
  intro x hx
  obtain ⟨b, -, rfl⟩ := List.mem_map.mp hx
  rfl

theorem Consume_video_fd_pts (wav : Nat → List UInt8) (gsta : GstAdapter)
    (buf : CMSampleBuffer) (hm : buf.MediaType = MediaType.MediaTypeVideo)
    (hf : buf.HasFormatDescription = true) :
    ∀ x ∈ deliveredVideo gsta (Consume wav gsta buf).1, x.pts = 0 := by
  rw [Consume_video_fd wav gsta buf hm hf]
  cases prependMarker buf.FormatDescription.PPS (buf.FormatDescription.PPS.length % 2 ^ 32) with
  | none => simp [deliveredVideo]
  | some pps =>
    cases prependMarker buf.FormatDescription.SPS (buf.FormatDescription.SPS.length % 2 ^ 32) with
    | none =>
      simp only
      rw [deliveredVideo_of_append gsta _ [⟨pps, 0, 0⟩] rfl]
      simp
    | some sps =>
      simp only
      rw [afterWriteNalus_fst]
      obtain ⟨bs, tail, -, -, h3⟩ := writeNalus_emits (emitRaw (emitRaw gsta 0 pps) 0 sps)
        (withPTS buf 0)
      rw [h3, deliveredVideo_of_append gsta _
        (⟨pps, 0, 0⟩ :: ⟨sps, 0, 0⟩ :: bs.map (frameBuf 0)) (by simp [emitAll, emitRaw, withPTS])]
      intro x hx
      rcases List.mem_cons.mp hx with rfl | hx
      · rfl
      rcases List.mem_cons.mp hx with rfl | hx
      · rfl
      obtain ⟨b, -, rfl⟩ := List.mem_map.mp hx
      rfl

/-- C3 (amended): for a video unit without format description and any timestamp
`t`, every buffer `Consume` delivers to the video source carries `t` when
`t <= 17446044073700192000` (the threshold itself included) and `0` when `t` is
strictly above the threshold. -/
theorem C3_timestamp_threshold_is_strict (wav : Nat → List UInt8) (gsta : GstAdapter)
    (buf : CMSampleBuffer) (hm : buf.MediaType = MediaType.MediaTypeVideo)
    (hf : buf.HasFormatDescription = false) :
    (buf.OutputPresentationTimestamp.CMTimeValue ≤ 17446044073700192000 →
      ∀ x ∈ deliveredVideo gsta (Consume wav gsta buf).1,
        x.pts = buf.OutputPresentationTimestamp.CMTimeValue) ∧
    (17446044073700192000 < buf.OutputPresentationTimestamp.CMTimeValue →
      ∀ x ∈ deliveredVideo gsta (Consume wav gsta buf).1, x.pts = 0) := by
  constructor
  · intro h x hx
    rw [Consume_video_plain_pts wav gsta buf hm hf x hx, normalizePTS_of_le _ h]
  · intro h x hx
    rw [Consume_video_plain_pts wav gsta buf hm hf x hx, normalizePTS_of_gt _ h]

/-- C3 at scenario A with the timestamp equal to the threshold. -/
theorem C3_timestamp_threshold_is_strict_witness :
    sentinelUnit.MediaType = MediaType.MediaTypeVideo ∧
    sentinelUnit.HasFormatDescription = false ∧
    ((sentinelUnit.OutputPresentationTimestamp.CMTimeValue ≤ 17446044073700192000 →
      ∀ x ∈ deliveredVideo New (Consume sampleWavHeader New sentinelUnit).1,
        x.pts = sentinelUnit.OutputPresentationTimestamp.CMTimeValue) ∧
    (17446044073700192000 < sentinelUnit.OutputPresentationTimestamp.CMTimeValue →
      ∀ x ∈ deliveredVideo New (Consume sampleWavHeader New sentinelUnit).1, x.pts = 0)) :=
  ⟨rfl, rfl, C3_timestamp_threshold_is_strict sampleWavHeader New sentinelUnit rfl rfl⟩

/-- C3 as stated fails at `t = sentinel`: the one buffer delivered for scenario A
carries the timestamp 17446044073700192000, not 0. -/
theorem C3_sentinel_counterexample :
    deliveredVideo New (Consume sampleWavHeader New (videoUnit scenarioPayload sentinel)).1
      = [⟨[0, 0, 0, 1, 0x41, 0x42, 0x43], 17446044073700192000, 0⟩] ∧
    ¬ ∀ x ∈ deliveredVideo New (Consume sampleWavHeader New (videoUnit scenarioPayload sentinel)).1,
      x.pts = 0 := by
  decide

end gstadapter

namespace gstadapter

/-- C4 (amended): a video unit with `HasFormatDescription = true`, parameter sets
`sps` and `pps` each shorter than `2 ^ 32 - 4` bytes, and a payload that is the
concatenation of the records of the bodies `bs`, each body shorter than
`2 ^ 32 - 4` bytes: `Consume` returns without error and the video source receives
exactly the PPS frame, the SPS frame and the payload frames, in that order, all
with presentation timestamp 0. -/
theorem C4_parameter_sets_precede_payload (wav : Nat → List UInt8) (gsta : GstAdapter)
    (buf : CMSampleBuffer) (bs : List (List UInt8))
    (hm : buf.MediaType = MediaType.MediaTypeVideo) (hf : buf.HasFormatDescription = true)
    (hsps : buf.FormatDescription.SPS.length < 2 ^ 32 - 4)
    (hpps : buf.FormatDescription.PPS.length < 2 ^ 32 - 4)
    (hp : buf.SampleData.data = encodeRecords bs)
    (hb : ∀ b ∈ bs, b.length < 2 ^ 32 - 4) :
    Consume wav gsta buf =
      ({ gsta with videoAppSrc := (gsta.videoAppSrc ++
          ⟨[0, 0, 0, 1] ++ buf.FormatDescription.PPS, 0, 0⟩ ::
          ⟨[0, 0, 0, 1] ++ buf.FormatDescription.SPS, 0, 0⟩ ::
          bs.map (fun b => ⟨[0, 0, 0, 1] ++ b, 0, 0⟩)) },
        Completion.returned none) := by
  rw [Consume_video_fd wav gsta buf hm hf]
  rw [Nat.mod_eq_of_lt (by omega : buf.FormatDescription.PPS.length < 2 ^ 32),
    Nat.mod_eq_of_lt (by omega : buf.FormatDescription.SPS.length < 2 ^ 32),
    prependMarker_exact _ (by omega), prependMarker_exact _ (by omega)]
  simp only
  rw [writeNalus_records _ (withPTS buf 0) bs hp (fun b h => by have := hb b h; omega)]
  simp [afterWriteNalus, emitAll, emitRaw, frameBuf, naluAnnexBMarkerBytes, withPTS]

/-- C4 at scenario B: `sps = S`, `pps = P`, payload `00 00 00 03 41 42 43`, the
timestamp equal to the threshold constant. -/
theorem C4_parameter_sets_precede_payload_witness :
    Consume sampleWavHeader New (scenarioFdUnit sentinel) =
      ({ New with videoAppSrc := (New.videoAppSrc ++
          ⟨[0, 0, 0, 1] ++ (scenarioFdUnit sentinel).FormatDescription.PPS, 0, 0⟩ ::
          ⟨[0, 0, 0, 1] ++ (scenarioFdUnit sentinel).FormatDescription.SPS, 0, 0⟩ ::
          [[0x41, 0x42, 0x43]].map (fun b => ⟨[0, 0, 0, 1] ++ b, 0, 0⟩)) },
        Completion.returned none) :=
  C4_parameter_sets_precede_payload sampleWavHeader New (scenarioFdUnit sentinel)
    [[0x41, 0x42, 0x43]] rfl rfl (by decide) (by decide) (by decide) (by decide)

/-- C4 as stated fails: with `sps = S`, `pps = P` and the well-formed payload
holding one record of `2 ^ 32 - 4` bytes, the video source receives the two
parameter-set frames only and `Consume` panics before the frame of the record. -/
theorem C4_huge_record_counterexample :
    hugeFdUnit.SampleData.data = encodeRecords [hugeBody] ∧ hugeBody.length < 2 ^ 32 ∧
    hugeFdUnit.FormatDescription.SPS.length < 2 ^ 32 - 4 ∧
    hugeFdUnit.FormatDescription.PPS.length < 2 ^ 32 - 4 ∧
    Consume sampleWavHeader New hugeFdUnit =
      (⟨[⟨[0, 0, 0, 1, 0x50], 0, 0⟩, ⟨[0, 0, 0, 1, 0x53], 0, 0⟩], [], true⟩,
        Completion.panicked) := by
  refine ⟨rfl, by rw [hugeBody_length]; decide, by decide, by decide, ?_⟩
  have h1 : prependMarker hugeFdUnit.FormatDescription.PPS
      (hugeFdUnit.FormatDescription.PPS.length % 2 ^ 32) = some [0, 0, 0, 1, 0x50] := by decide
  have h2 : prependMarker hugeFdUnit.FormatDescription.SPS
      (hugeFdUnit.FormatDescription.SPS.length % 2 ^ 32) = some [0, 0, 0, 1, 0x53] := by decide
  rw [Consume_video_fd sampleWavHeader New hugeFdUnit rfl rfl, h1, h2]
  simp only
  rw [writeNalus_wrap _ (withPTS hugeFdUnit 0) 4294967292 (hugeBody ++ []) hugePayload_data
    (by decide) (by decide)]
  rfl

/-- C5 (amended): for every video unit and every timestamp `t`, with
`HasFormatDescription = true` every buffer `Consume` delivers to the video source
carries timestamp 0 whatever `t` is, and with `HasFormatDescription = false` every
delivered buffer carries `t` when `t <= 17446044073700192000` and 0 above it. -/
theorem C5_format_description_forces_zero_timestamp (wav : Nat → List UInt8)
    (gsta : GstAdapter) (buf : CMSampleBuffer)
    (hm : buf.MediaType = MediaType.MediaTypeVideo) :
    (∀ x ∈ deliveredVideo gsta (Consume wav gsta (withHasFormatDescription buf true)).1,
      x.pts = 0) ∧
    (∀ x ∈ deliveredVideo gsta (Consume wav gsta (withHasFormatDescription buf false)).1,
      x.pts = if 17446044073700192000 < buf.OutputPresentationTimestamp.CMTimeValue then 0
        else buf.OutputPresentationTimestamp.CMTimeValue) :=
  ⟨Consume_video_fd_pts wav gsta (withHasFormatDescription buf true) hm rfl,
    Consume_video_plain_pts wav gsta (withHasFormatDescription buf false) hm rfl⟩

/-- C5 at scenario B with timestamp 100. -/
theorem C5_format_description_forces_zero_timestamp_witness :
    (scenarioFdUnit 100).MediaType = MediaType.MediaTypeVideo ∧
    ((∀ x ∈ deliveredVideo New
        (Consume sampleWavHeader New (withHasFormatDescription (scenarioFdUnit 100) true)).1,
      x.pts = 0) ∧
    (∀ x ∈ deliveredVideo New
        (Consume sampleWavHeader New (withHasFormatDescription (scenarioFdUnit 100) false)).1,
      x.pts = if 17446044073700192000 <
          (scenarioFdUnit 100).OutputPresentationTimestamp.CMTimeValue then 0
        else (scenarioFdUnit 100).OutputPresentationTimestamp.CMTimeValue)) :=
  ⟨rfl, C5_format_description_forces_zero_timestamp sampleWavHeader New (scenarioFdUnit 100) rfl⟩

/-- C5 as stated fails at `t = 100`: the same unit gets its payload frame (and the
parameter sets) at timestamp 0 with the format description and at timestamp 100
without it. -/
theorem C5_timestamp_counterexample :
    (deliveredVideo New
      (Consume sampleWavHeader New (withHasFormatDescription (scenarioFdUnit 100) true)).1)
      = [⟨[0, 0, 0, 1, 0x50], 0, 0⟩, ⟨[0, 0, 0, 1, 0x53], 0, 0⟩,
          ⟨[0, 0, 0, 1, 0x41, 0x42, 0x43], 0, 0⟩] ∧
    (deliveredVideo New
      (Consume sampleWavHeader New (withHasFormatDescription (scenarioFdUnit 100) false)).1)
      = [⟨[0, 0, 0, 1, 0x41, 0x42, 0x43], 100, 0⟩] ∧
    100 < sentinel := by
  decide

end gstadapter

namespace gstadapter

theorem Consume_sound (wav : Nat → List UInt8) (gsta : GstAdapter) (buf : CMSampleBuffer)
    (hm : buf.MediaType = MediaType.MediaTypeSound) :
    Consume wav gsta buf =
      (⟨gsta.videoAppSrc,
        gsta.audioAppSrc ++ (if gsta.firstAudioSample then [wavHeaderBuf wav] else []) ++
          [audioBuf buf],
        false⟩, Completion.returned none) := by
  obtain ⟨v, a, f⟩ := gsta
  cases f <;>
    simp [Consume, hm, sendWavHeader, sendAudioSample, NewBufferAllocate, GstBuffer.SetPTS,
      GstBuffer.SetDTS, GstBuffer.FillWithGoSlice, AppSrc.PushBuffer, goCopy_same_length,
      ByteSlice.len, wavHeaderBuf, audioBuf]

theorem Consume_video_keeps_audio (wav : Nat → List UInt8) (gsta : GstAdapter)
    (buf : CMSampleBuffer) (hm : buf.MediaType = MediaType.MediaTypeVideo) :
    (Consume wav gsta buf).1.audioAppSrc = gsta.audioAppSrc ∧
    (Consume wav gsta buf).1.firstAudioSample = gsta.firstAudioSample := by
  cases hf : buf.HasFormatDescription with
  | false =>
    rw [Consume_video_plain wav gsta buf hm hf, afterWriteNalus_fst]
    obtain ⟨bs, tail, -, -, h3⟩ := writeNalus_emits gsta
      (withPTS buf (normalizePTS buf.OutputPresentationTimestamp.CMTimeValue))
    rw [h3]
    exact ⟨rfl, rfl⟩
  | true =>
    rw [Consume_video_fd wav gsta buf hm hf]
    cases prependMarker buf.FormatDescription.PPS (buf.FormatDescription.PPS.length % 2 ^ 32) with
    | none => exact ⟨rfl, rfl⟩
    | some pps =>
      cases prependMarker buf.FormatDescription.SPS
          (buf.FormatDescription.SPS.length % 2 ^ 32) with
      | none => exact ⟨rfl, rfl⟩
      | some sps =>
        simp only
        rw [afterWriteNalus_fst]
        obtain ⟨bs, tail, -, -, h3⟩ := writeNalus_emits (emitRaw (emitRaw gsta 0 pps) 0 sps)
          (withPTS buf 0)
        rw [h3]
        exact ⟨rfl, rfl⟩

theorem consumeAll_audio (wav : Nat → List UInt8) (units : List CMSampleBuffer)
    (gsta : GstAdapter) :
    (consumeAll wav gsta units).audioAppSrc =
      gsta.audioAppSrc ++
        (if gsta.firstAudioSample = true ∧ units.filter isSound ≠ [] then [wavHeaderBuf wav]
          else []) ++
        (units.filter isSound).map audioBuf := by
  induction units generalizing gsta with
  | nil => simp [consumeAll]
  | cons u rest ih =>
    rw [consumeAll, ih]
    cases hm : u.MediaType with
    | MediaTypeVideo =>
      have hk := Consume_video_keeps_audio wav gsta u hm
      have hs : isSound u = false := by simp [isSound, hm]
      rw [hk.1, hk.2, List.filter_cons_of_neg (by simp [hs])]
    | MediaTypeSound =>
      have hs : isSound u = true := by simp [isSound, hm]
      rw [Consume_sound wav gsta u hm, List.filter_cons_of_pos hs]
      cases gsta.firstAudioSample <;> simp

/-- C6: for every finite sequence of sample units fed by successive `Consume`
calls to a freshly created adapter, the audio source ends up empty when the
sequence has no audio unit, and otherwise holds the WAV header as a buffer of its
own at timestamp 0, followed at once by the payload buffer of the first audio
unit and then by nothing but the payload buffers of the later audio units: the
header is delivered exactly once, before the first payload, never again. -/
theorem C6_wav_header_exactly_once (wav : Nat → List UInt8) (units : List CMSampleBuffer) :
    (consumeAll wav New units).audioAppSrc =
      if units.filter isSound = [] then []
      else ⟨wav 100, 0, 0⟩ ::
        (units.filter isSound).map
          (fun u => ⟨u.SampleData.data, u.OutputPresentationTimestamp.CMTimeValue, 0⟩) := by
  rw [consumeAll_audio]
  by_cases h : units.filter isSound = []
  · simp [h, New]
  · simp [h, New, wavHeaderBuf]
    intro a _ _
    rfl

/-- C8: for every audio unit with payload `p` and timestamp `t`, `Consume` returns
without error, leaves the video source untouched and appends to the audio source
the payload as one unmodified buffer with presentation timestamp `t`, preceded by
the WAV header at timestamp 0 exactly when the adapter had not seen audio before;
on a fresh adapter the first audio unit yields the header then its payload, and a
second audio unit adds its payload only. -/
theorem C8_audio_passthrough (wav : Nat → List UInt8) (gsta : GstAdapter)
    (buf buf2 : CMSampleBuffer)
    (hm : buf.MediaType = MediaType.MediaTypeSound)
    (hm2 : buf2.MediaType = MediaType.MediaTypeSound) :
    Consume wav gsta buf =
      (⟨gsta.videoAppSrc,
        gsta.audioAppSrc ++ (if gsta.firstAudioSample then [⟨wav 100, 0, 0⟩] else []) ++
          [⟨buf.SampleData.data, buf.OutputPresentationTimestamp.CMTimeValue, 0⟩],
        false⟩, Completion.returned none) ∧
    Consume wav New buf =
      (⟨[], [⟨wav 100, 0, 0⟩,
          ⟨buf.SampleData.data, buf.OutputPresentationTimestamp.CMTimeValue, 0⟩], false⟩,
        Completion.returned none) ∧
    Consume wav (Consume wav New buf).1 buf2 =
      (⟨[], [⟨wav 100, 0, 0⟩,
          ⟨buf.SampleData.data, buf.OutputPresentationTimestamp.CMTimeValue, 0⟩,
          ⟨buf2.SampleData.data, buf2.OutputPresentationTimestamp.CMTimeValue, 0⟩], false⟩,
        Completion.returned none) := by
  refine ⟨Consume_sound wav gsta buf hm, ?_, ?_⟩
  · rw [Consume_sound wav New buf hm]
    rfl
  · rw [Consume_sound wav New buf hm, Consume_sound wav _ buf2 hm2]
    rfl

/-- C8 at scenario C: payload `XY` at timestamp 5, then a second audio unit. -/
theorem C8_audio_passthrough_witness :
    Consume sampleWavHeader New (audioUnit [0x58, 0x59] [] 5) =
      (⟨New.videoAppSrc,
        New.audioAppSrc ++ (if New.firstAudioSample then [⟨sampleWavHeader 100, 0, 0⟩] else []) ++
          [⟨(audioUnit [0x58, 0x59] [] 5).SampleData.data,
            (audioUnit [0x58, 0x59] [] 5).OutputPresentationTimestamp.CMTimeValue, 0⟩],
        false⟩, Completion.returned none) ∧
    Consume sampleWavHeader New (audioUnit [0x58, 0x59] [] 5) =
      (⟨[], [⟨sampleWavHeader 100, 0, 0⟩,
          ⟨(audioUnit [0x58, 0x59] [] 5).SampleData.data,
            (audioUnit [0x58, 0x59] [] 5).OutputPresentationTimestamp.CMTimeValue, 0⟩], false⟩,
        Completion.returned none) ∧
    Consume sampleWavHeader (Consume sampleWavHeader New (audioUnit [0x58, 0x59] [] 5)).1
        (audioUnit [0x5a] [0x00] 17446044073700192001) =
      (⟨[], [⟨sampleWavHeader 100, 0, 0⟩,
          ⟨(audioUnit [0x58, 0x59] [] 5).SampleData.data,
            (audioUnit [0x58, 0x59] [] 5).OutputPresentationTimestamp.CMTimeValue, 0⟩,
          ⟨(audioUnit [0x5a] [0x00] 17446044073700192001).SampleData.data,
            (audioUnit [0x5a] [0x00] 17446044073700192001).OutputPresentationTimestamp.CMTimeValue,
            0⟩], false⟩,
        Completion.returned none) :=
  C8_audio_passthrough sampleWavHeader New (audioUnit [0x58, 0x59] [] 5)
    (audioUnit [0x5a] [0x00] 17446044073700192001) rfl rfl

end gstadapter

namespace gstadapter

theorem stripMarker_frame (b : List UInt8) : stripMarker (naluAnnexBMarkerBytes ++ b) = some b := by
  simp [stripMarker, naluAnnexBMarkerBytes]

theorem reassemble_frames (bs : List (List UInt8)) :
    reassemble (bs.map (fun b => naluAnnexBMarkerBytes ++ b)) = some (encodeRecords bs) := by
  induction bs with
  | nil => rfl
  | cons b bs ih =>
    simp only [List.map_cons, reassemble, stripMarker_frame, ih, encodeRecords]

theorem map_data_frameBuf (pts : Nat) (bs : List (List UInt8)) :
    (bs.map (frameBuf pts)).map GstBuffer.data = bs.map (fun b => naluAnnexBMarkerBytes ++ b) := by
  simp [frameBuf, Function.comp_def]

/-- C2 (amended): round-trip law.  For every payload that is the concatenation of
the records `[4-byte big-endian length][bytes]` of bodies each shorter than
`2 ^ 32 - 4` bytes, the frames `writeNalus` emits, with the marker stripped from
each, the body length put back in front as a 4-byte big-endian integer, and the
results concatenated in emission order, give back the payload byte for byte. -/
theorem C2_reframing_round_trip (gsta : GstAdapter) (buf : CMSampleBuffer)
    (bs : List (List UInt8)) (hp : buf.SampleData.data = encodeRecords bs)
    (hb : ∀ b ∈ bs, b.length < 2 ^ 32 - 4) :
    reassemble ((deliveredVideo gsta (writeNalus gsta buf).1).map GstBuffer.data)
      = some buf.SampleData.data := by
  rw [writeNalus_records gsta buf bs hp (fun b h => by have := hb b h; omega)]
  simp only
  rw [deliveredVideo_emitAll, map_data_frameBuf, reassemble_frames, hp]

/-- C2 on a payload of two records, the second one empty. -/
theorem C2_reframing_round_trip_witness :
    reassemble ((deliveredVideo New
        (writeNalus New (videoUnit ⟨[0, 0, 0, 3, 0x41, 0x42, 0x43, 0, 0, 0, 0], [0x07]⟩ 100)).1).map
        GstBuffer.data)
      = some (videoUnit ⟨[0, 0, 0, 3, 0x41, 0x42, 0x43, 0, 0, 0, 0], [0x07]⟩ 100).SampleData.data :=
  C2_reframing_round_trip New (videoUnit ⟨[0, 0, 0, 3, 0x41, 0x42, 0x43, 0, 0, 0, 0], [0x07]⟩ 100)
    [[0x41, 0x42, 0x43], []] (by decide) (by decide)

/-- C2 as stated fails: on the well-formed payload holding one record of
`2 ^ 32 - 4` bytes `writeNalus` emits no frame, so reassembling the emitted frames
gives the empty byte string, not the payload. -/
theorem C2_huge_record_counterexample :
    hugePayload.data = encodeRecords [hugeBody] ∧ hugeBody.length < 2 ^ 32 ∧
    reassemble ((deliveredVideo New
        (writeNalus New (videoUnit hugePayload 100)).1).map GstBuffer.data) = some [] ∧
    reassemble ((deliveredVideo New
        (writeNalus New (videoUnit hugePayload 100)).1).map GstBuffer.data)
      ≠ some (videoUnit hugePayload 100).SampleData.data := by
  have h : writeNalus New (videoUnit hugePayload 100) = (New, Completion.panicked) :=
    writeNalus_wrap New (videoUnit hugePayload 100) 4294967292 (hugeBody ++ []) hugePayload_data
      (by decide) (by decide)
  have hr : reassemble ((deliveredVideo New
      (writeNalus New (videoUnit hugePayload 100)).1).map GstBuffer.data) = some [] := by
    rw [h]; rfl
  refine ⟨rfl, by rw [hugeBody_length]; decide, hr, ?_⟩
  rw [hr]
  intro hc
  have hd : (videoUnit hugePayload 100).SampleData.data = putUint32 4294967292 ++ (hugeBody ++ []) :=
    hugePayload_data
  rw [hd] at hc
  simp [putUint32] at hc

end gstadapter

namespace gstadapter

theorem writeNalusLoop_overlong (fuel : Nat) (gsta : GstAdapter) (L : Nat) (tail spare : List UInt8)
    (buf : CMSampleBuffer) (hL : L < 2 ^ 32) (hbad : tail.length + spare.length < L) :
    writeNalusLoop (fuel + 1) gsta ⟨putUint32 L ++ tail, spare⟩ buf
      = (gsta, Completion.panicked) := by
  rw [writeNalusLoop_succ fuel gsta _ spare buf L (BigEndianUint32_putUint32 L hL tail), if_neg]
  simp only [List.length_append, putUint32_length]
  omega

theorem writeNalus_malformed (gsta : GstAdapter) (buf : CMSampleBuffer)
    (bs : List (List UInt8)) (rest : List UInt8)
    (hp : buf.SampleData.data = encodeRecords bs ++ rest)
    (hb : ∀ b ∈ bs, b.length + 4 < 2 ^ 32)
    (hbad : (0 < rest.length ∧ rest.length < 4) ∨
      ∃ L tail, L < 2 ^ 32 ∧ rest = putUint32 L ++ tail ∧
        tail.length + buf.SampleData.spare.length < L) :
    writeNalus gsta buf =
      (emitAll gsta buf.OutputPresentationTimestamp.CMTimeValue bs, Completion.panicked) := by
  obtain ⟨k, hk⟩ := writeNalus_records_then gsta buf bs rest hp hb
  rw [hk]
  rcases hbad with ⟨h0, h4⟩ | ⟨L, tail, hL, rfl, hlt⟩
  · exact writeNalusLoop_short k _ rest _ buf h0 h4
  · exact writeNalusLoop_overlong k _ L tail _ buf hL hlt

theorem Consume_video_malformed (wav : Nat → List UInt8) (gsta : GstAdapter)
    (buf : CMSampleBuffer) (bs : List (List UInt8)) (rest : List UInt8)
    (hm : buf.MediaType = MediaType.MediaTypeVideo)
    (hp : buf.SampleData.data = encodeRecords bs ++ rest)
    (hb : ∀ b ∈ bs, b.length + 4 < 2 ^ 32)
    (hbad : (0 < rest.length ∧ rest.length < 4) ∨
      ∃ L tail, L < 2 ^ 32 ∧ rest = putUint32 L ++ tail ∧
        tail.length + buf.SampleData.spare.length < L) :
    Consume wav gsta buf =
      ({ gsta with videoAppSrc := (gsta.videoAppSrc ++ (parameterSetBuffers buf).1 ++
          (if (parameterSetBuffers buf).2 then
            bs.map (frameBuf (if buf.HasFormatDescription then 0
              else normalizePTS buf.OutputPresentationTimestamp.CMTimeValue))
          else [])) },
        Completion.panicked) := by
  cases hf : buf.HasFormatDescription with
  | false =>
    rw [Consume_video_plain wav gsta buf hm hf,
      writeNalus_malformed gsta
        (withPTS buf (normalizePTS buf.OutputPresentationTimestamp.CMTimeValue)) bs rest hp hb hbad]
    simp [parameterSetBuffers, hf, afterWriteNalus, emitAll, withPTS]
  | true =>
    rw [Consume_video_fd wav gsta buf hm hf]
    simp only [parameterSetBuffers, hf, if_true]
    cases prependMarker buf.FormatDescription.PPS (buf.FormatDescription.PPS.length % 2 ^ 32) with
    | none => simp
    | some pps =>
      cases prependMarker buf.FormatDescription.SPS
          (buf.FormatDescription.SPS.length % 2 ^ 32) with
      | none => simp [emitRaw]
      | some sps =>
        simp only
        rw [writeNalus_malformed (emitRaw (emitRaw gsta 0 pps) 0 sps) (withPTS buf 0) bs rest
          hp hb hbad]
        simp [afterWriteNalus, emitAll, emitRaw, withPTS]

theorem parameterSetBuffers_plain (buf : CMSampleBuffer) (hf : buf.HasFormatDescription = false) :
    parameterSetBuffers buf = ([], true) := by
  simp [parameterSetBuffers, hf]

theorem parameterSetBuffers_fd (buf : CMSampleBuffer) (hf : buf.HasFormatDescription = true)
    (hsps : buf.FormatDescription.SPS.length + 4 < 2 ^ 32)
    (hpps : buf.FormatDescription.PPS.length + 4 < 2 ^ 32) :
    parameterSetBuffers buf =
      ([⟨naluAnnexBMarkerBytes ++ buf.FormatDescription.PPS, 0, 0⟩,
        ⟨naluAnnexBMarkerBytes ++ buf.FormatDescription.SPS, 0, 0⟩], true) := by
  simp only [parameterSetBuffers, hf, if_true]
  rw [Nat.mod_eq_of_lt (by omega : buf.FormatDescription.PPS.length < 2 ^ 32),
    Nat.mod_eq_of_lt (by omega : buf.FormatDescription.SPS.length < 2 ^ 32),
    prependMarker_exact _ hpps, prependMarker_exact _ hsps]

/-- C7 (amended): for every payload that consists of records of bodies `bs` (each
shorter than `2 ^ 32 - 4` bytes) followed by an offending remainder, where either
1 to 3 bytes remain or the declared length `L` exceeds the bytes that follow the
length field in the backing array of the slice (the bytes remaining in the payload
when the slice has no spare capacity), `writeNalus` panics after the frames of
the records before the offending one, and `Consume` on every video unit with such
a payload, with or without format description, panics as well: no `error` value
is returned, the video source receives the parameter-set buffers that `Consume`
pushes first (none without format description; the PPS frame then the SPS frame,
at timestamp 0, when both are shorter than `2 ^ 32 - 4` bytes) followed by the
frames of the records before the offending one and by no frame at or after it,
and the audio source and the first-audio flag are as before, so a caller that
recovers can consume the next unit. -/
theorem C7_malformed_payload_panics (wav : Nat → List UInt8) (gsta : GstAdapter)
    (buf : CMSampleBuffer) (bs : List (List UInt8)) (rest : List UInt8)
    (hp : buf.SampleData.data = encodeRecords bs ++ rest)
    (hb : ∀ b ∈ bs, b.length < 2 ^ 32 - 4)
    (hbad : (0 < rest.length ∧ rest.length < 4) ∨
      ∃ L tail, L < 2 ^ 32 ∧ rest = putUint32 L ++ tail ∧
        tail.length + buf.SampleData.spare.length < L) :
    writeNalus gsta buf =
      ({ gsta with videoAppSrc := (gsta.videoAppSrc ++
          bs.map (fun b => ⟨[0, 0, 0, 1] ++ b, buf.OutputPresentationTimestamp.CMTimeValue, 0⟩)) },
        Completion.panicked) ∧
    (buf.MediaType = MediaType.MediaTypeVideo →
      Consume wav gsta buf =
        ({ gsta with videoAppSrc := (gsta.videoAppSrc ++ (parameterSetBuffers buf).1 ++
            (if (parameterSetBuffers buf).2 then
              bs.map (fun b => ⟨[0, 0, 0, 1] ++ b,
                if buf.HasFormatDescription then 0
                else if 17446044073700192000 < buf.OutputPresentationTimestamp.CMTimeValue then 0
                else buf.OutputPresentationTimestamp.CMTimeValue, 0⟩)
            else [])) },
          Completion.panicked) ∧
      ∀ e, (Consume wav gsta buf).2 ≠ Completion.returned (some e)) ∧
    (buf.MediaType = MediaType.MediaTypeVideo → buf.HasFormatDescription = false →
      Consume wav gsta buf =
        ({ gsta with videoAppSrc := (gsta.videoAppSrc ++
            bs.map (fun b => ⟨[0, 0, 0, 1] ++ b,
              if 17446044073700192000 < buf.OutputPresentationTimestamp.CMTimeValue then 0
              else buf.OutputPresentationTimestamp.CMTimeValue, 0⟩)) },
          Completion.panicked)) ∧
    (buf.MediaType = MediaType.MediaTypeVideo → buf.HasFormatDescription = true →
      buf.FormatDescription.SPS.length < 2 ^ 32 - 4 →
      buf.FormatDescription.PPS.length < 2 ^ 32 - 4 →
      Consume wav gsta buf =
        ({ gsta with videoAppSrc := (gsta.videoAppSrc ++
            ⟨[0, 0, 0, 1] ++ buf.FormatDescription.PPS, 0, 0⟩ ::
            ⟨[0, 0, 0, 1] ++ buf.FormatDescription.SPS, 0, 0⟩ ::
            bs.map (fun b => ⟨[0, 0, 0, 1] ++ b, 0, 0⟩)) },
          Completion.panicked)) := by
  have hb2 : ∀ b ∈ bs, b.length + 4 < 2 ^ 32 := fun b h => by have := hb b h; omega
  have h1 := writeNalus_malformed gsta buf bs rest hp hb2 hbad
  refine ⟨h1, ?_, ?_, ?_⟩
  · intro hm
    have h2 := Consume_video_malformed wav gsta buf bs rest hm hp hb2 hbad
    refine ⟨h2, ?_⟩
    intro e
    rw [h2]
    exact fun hc => Completion.noConfusion hc
  · intro hm hf
    rw [Consume_video_malformed wav gsta buf bs rest hm hp hb2 hbad,
      parameterSetBuffers_plain buf hf, hf]
    simp [frameBuf, naluAnnexBMarkerBytes, normalizePTS, sentinel]
  · intro hm hf hsps hpps
    rw [Consume_video_malformed wav gsta buf bs rest hm hp hb2 hbad,
      parameterSetBuffers_fd buf hf (by omega) (by omega), hf]
    simp [frameBuf, naluAnnexBMarkerBytes]

/-- C7 on a unit with format description whose payload is `00 00 00 01 09` followed
by `00 00 00 05 01`: the second record declares 5 bytes, 1 follows. -/
theorem C7_malformed_payload_panics_witness :
    writeNalus New truncatedFdUnit =
      ({ New with videoAppSrc := (New.videoAppSrc ++
          [[0x09]].map (fun b => ⟨[0, 0, 0, 1] ++ b,
            truncatedFdUnit.OutputPresentationTimestamp.CMTimeValue, 0⟩)) },
        Completion.panicked) ∧
    (truncatedFdUnit.MediaType = MediaType.MediaTypeVideo →
      Consume sampleWavHeader New truncatedFdUnit =
        ({ New with videoAppSrc := (New.videoAppSrc ++ (parameterSetBuffers truncatedFdUnit).1 ++
            (if (parameterSetBuffers truncatedFdUnit).2 then
              [[0x09]].map (fun b => ⟨[0, 0, 0, 1] ++ b,
                if truncatedFdUnit.HasFormatDescription then 0
                else if 17446044073700192000 <
                    truncatedFdUnit.OutputPresentationTimestamp.CMTimeValue then 0
                else truncatedFdUnit.OutputPresentationTimestamp.CMTimeValue, 0⟩)
            else [])) },
          Completion.panicked) ∧
      ∀ e, (Consume sampleWavHeader New truncatedFdUnit).2 ≠ Completion.returned (some e)) ∧
    (truncatedFdUnit.MediaType = MediaType.MediaTypeVideo →
      truncatedFdUnit.HasFormatDescription = false →
      Consume sampleWavHeader New truncatedFdUnit =
        ({ New with videoAppSrc := (New.videoAppSrc ++
            [[0x09]].map (fun b => ⟨[0, 0, 0, 1] ++ b,
              if 17446044073700192000 <
                  truncatedFdUnit.OutputPresentationTimestamp.CMTimeValue then 0
              else truncatedFdUnit.OutputPresentationTimestamp.CMTimeValue, 0⟩)) },
          Completion.panicked)) ∧
    (truncatedFdUnit.MediaType = MediaType.MediaTypeVideo →
      truncatedFdUnit.HasFormatDescription = true →
      truncatedFdUnit.FormatDescription.SPS.length < 2 ^ 32 - 4 →
      truncatedFdUnit.FormatDescription.PPS.length < 2 ^ 32 - 4 →
      Consume sampleWavHeader New truncatedFdUnit =
        ({ New with videoAppSrc := (New.videoAppSrc ++
            ⟨[0, 0, 0, 1] ++ truncatedFdUnit.FormatDescription.PPS, 0, 0⟩ ::
            ⟨[0, 0, 0, 1] ++ truncatedFdUnit.FormatDescription.SPS, 0, 0⟩ ::
            [[0x09]].map (fun b => ⟨[0, 0, 0, 1] ++ b, 0, 0⟩)) },
          Completion.panicked)) :=
  C7_malformed_payload_panics sampleWavHeader New truncatedFdUnit [[0x09]]
    [0, 0, 0, 5, 1] (by decide) (by decide)
    (Or.inr ⟨5, [1], by decide, by decide, by decide⟩)

/-- C7 as stated fails: on the payload `00 00 00 05 01` (declared length 5, one
byte remaining) `Consume` and `writeNalus` panic; no error is returned to the
caller.  The same happens on a payload of 2 bytes, and on a unit with format
description after its parameter-set frames and the frame of the record before the
offending one. -/
theorem C7_truncated_record_counterexample :
    Consume sampleWavHeader New (videoUnit truncatedPayload 100) = (New, Completion.panicked) ∧
    writeNalus New (videoUnit truncatedPayload 100) = (New, Completion.panicked) ∧
    Consume sampleWavHeader New (videoUnit ⟨[0, 0], []⟩ 100) = (New, Completion.panicked) ∧
    Consume sampleWavHeader New truncatedFdUnit =
      (⟨[⟨[0, 0, 0, 1, 0x50], 0, 0⟩, ⟨[0, 0, 0, 1, 0x53], 0, 0⟩, ⟨[0, 0, 0, 1, 0x09], 0, 0⟩],
        [], true⟩, Completion.panicked) := by
  decide

/-- C9 (amended): for every video payload whatsoever, the frames `writeNalus`
emits before it finishes or panics are exactly `00 00 00 01 ++ b` for bodies `bs`
whose records `[4-byte big-endian length of b][b]`, each declared length below
`2 ^ 32 - 4`, stand one after the other from the start of the backing array of the
payload slice (the payload followed by the spare capacity of the slice): every
body is the complete run of declared bytes, never truncated, zero-padded or
shifted, and all its bytes are present in the backing array; they are all present
in the payload itself when the slice has no spare capacity. -/
theorem C9_emitted_frames_are_complete_records (gsta : GstAdapter) (buf : CMSampleBuffer) :
    ∃ bs tail, (∀ b ∈ bs, b.length < 2 ^ 32 - 4) ∧
      buf.SampleData.data ++ buf.SampleData.spare = encodeRecords bs ++ tail ∧
      (writeNalus gsta buf).1 =
        { gsta with videoAppSrc := (gsta.videoAppSrc ++
          bs.map (fun b => ⟨[0, 0, 0, 1] ++ b,
            buf.OutputPresentationTimestamp.CMTimeValue, 0⟩)) } := by
  obtain ⟨bs, tail, h1, h2, h3⟩ := writeNalus_emits gsta buf
  exact ⟨bs, tail, fun b h => by have := h1 b h; omega, h2, h3⟩

/-- C9 on the payload `00 00 00 02 AA` held in a slice of capacity 6. -/
theorem C9_emitted_frames_are_complete_records_witness :
    ∃ bs tail, (∀ b ∈ bs, b.length < 2 ^ 32 - 4) ∧
      (videoUnit overhangPayload 100).SampleData.data ++
          (videoUnit overhangPayload 100).SampleData.spare = encodeRecords bs ++ tail ∧
      (writeNalus New (videoUnit overhangPayload 100)).1 =
        { New with videoAppSrc := (New.videoAppSrc ++
          bs.map (fun b => ⟨[0, 0, 0, 1] ++ b,
            (videoUnit overhangPayload 100).OutputPresentationTimestamp.CMTimeValue, 0⟩)) } :=
  C9_emitted_frames_are_complete_records New (videoUnit overhangPayload 100)

/-- C9 as stated fails: the payload `00 00 00 02 AA` lies in a slice of capacity 6
whose backing array continues with `BB`; `writeNalus` emits the frame
`00 00 00 01 AA BB` and then panics, although the byte `BB` is not in the payload
and only one of the two declared bytes is. -/
theorem C9_spare_capacity_counterexample :
    writeNalus New (videoUnit overhangPayload 100) =
      (⟨[⟨[0, 0, 0, 1, 0xAA, 0xBB], 100, 0⟩], [], true⟩, Completion.panicked) ∧
    overhangPayload.data = [0, 0, 0, 2, 0xAA] ∧
    (0xBB : UInt8) ∉ overhangPayload.data := by
  decide

/-- C10 (amended): on every payload that is the concatenation of the records of
bodies `bs`, each shorter than `2 ^ 32 - 4` bytes, the loop of `writeNalus`
terminates normally: one iteration consumes exactly the `4 + L` bytes of the first
record and emits its frame (also when `L = 0`), `bs.length + 1` units of fuel or
more give the result, `writeNalus` returns `nil` having emitted exactly one frame
per record, and nothing at all for the empty payload. -/
theorem C10_reframing_loop_terminates (gsta : GstAdapter) (buf : CMSampleBuffer)
    (bs : List (List UInt8)) (hp : buf.SampleData.data = encodeRecords bs)
    (hb : ∀ b ∈ bs, b.length < 2 ^ 32 - 4) :
    (∀ fuel g b rest, b.length < 2 ^ 32 - 4 →
      writeNalusLoop (fuel + 1) g ⟨putUint32 b.length ++ b ++ rest, buf.SampleData.spare⟩ buf =
        writeNalusLoop fuel
          { g with videoAppSrc := (g.videoAppSrc ++
            [⟨[0, 0, 0, 1] ++ b, buf.OutputPresentationTimestamp.CMTimeValue, 0⟩]) }
          ⟨rest, buf.SampleData.spare⟩ buf) ∧
    (∀ fuel, writeNalusLoop (bs.length + (fuel + 1)) gsta buf.SampleData buf =
      ({ gsta with videoAppSrc := (gsta.videoAppSrc ++
          bs.map (fun b => ⟨[0, 0, 0, 1] ++ b, buf.OutputPresentationTimestamp.CMTimeValue, 0⟩)) },
        Completion.returned none)) ∧
    writeNalus gsta buf =
      ({ gsta with videoAppSrc := (gsta.videoAppSrc ++
          bs.map (fun b => ⟨[0, 0, 0, 1] ++ b, buf.OutputPresentationTimestamp.CMTimeValue, 0⟩)) },
        Completion.returned none) ∧
    (deliveredVideo gsta (writeNalus gsta buf).1).length = bs.length ∧
    (bs = [] → deliveredVideo gsta (writeNalus gsta buf).1 = []) := by
  have hb2 : ∀ b ∈ bs, b.length + 4 < 2 ^ 32 := fun b h => by have := hb b h; omega
  have hw := writeNalus_records gsta buf bs hp hb2
  refine ⟨?_, ?_, hw, ?_, ?_⟩
  · intro fuel g b rest hbl
    exact writeNalusLoop_record fuel g b rest _ buf (by omega)
  · intro fuel
    have hs : buf.SampleData = ⟨encodeRecords bs ++ [], buf.SampleData.spare⟩ := by
      cases hsd : buf.SampleData with
      | mk d s => rw [hsd] at hp; simp only at hp; rw [hp, List.append_nil]
    rw [hs, writeNalusLoop_records bs hb2 (fuel + 1) gsta [] _ buf, writeNalusLoop_nil]
    rfl
  · rw [hw]
    simp only
    rw [deliveredVideo_emitAll, List.length_map]
  · intro hnil
    rw [hw]
    simp only
    rw [deliveredVideo_emitAll, hnil]
    rfl

/-- C10 on a payload of three records, the middle one of declared length 0. -/
theorem C10_reframing_loop_terminates_witness :
    (∀ fuel g b rest, b.length < 2 ^ 32 - 4 →
      writeNalusLoop (fuel + 1) g ⟨putUint32 b.length ++ b ++ rest,
          (videoUnit ⟨[0, 0, 0, 1, 0x09, 0, 0, 0, 0, 0, 0, 0, 2, 0x0a, 0x0b], []⟩ 7).SampleData.spare⟩
          (videoUnit ⟨[0, 0, 0, 1, 0x09, 0, 0, 0, 0, 0, 0, 0, 2, 0x0a, 0x0b], []⟩ 7) =
        writeNalusLoop fuel
          { g with videoAppSrc := (g.videoAppSrc ++
            [⟨[0, 0, 0, 1] ++ b,
              (videoUnit ⟨[0, 0, 0, 1, 0x09, 0, 0, 0, 0, 0, 0, 0, 2, 0x0a, 0x0b],
                []⟩ 7).OutputPresentationTimestamp.CMTimeValue, 0⟩]) }
          ⟨rest,
            (videoUnit ⟨[0, 0, 0, 1, 0x09, 0, 0, 0, 0, 0, 0, 0, 2, 0x0a, 0x0b], []⟩ 7).SampleData.spare⟩
          (videoUnit ⟨[0, 0, 0, 1, 0x09, 0, 0, 0, 0, 0, 0, 0, 2, 0x0a, 0x0b], []⟩ 7)) ∧
    (∀ fuel, writeNalusLoop ([[0x09], [], [0x0a, 0x0b]].length + (fuel + 1)) New
        (videoUnit ⟨[0, 0, 0, 1, 0x09, 0, 0, 0, 0, 0, 0, 0, 2, 0x0a, 0x0b], []⟩ 7).SampleData
        (videoUnit ⟨[0, 0, 0, 1, 0x09, 0, 0, 0, 0, 0, 0, 0, 2, 0x0a, 0x0b], []⟩ 7) =
      ({ New with videoAppSrc := (New.videoAppSrc ++
          [[0x09], [], [0x0a, 0x0b]].map (fun b => ⟨[0, 0, 0, 1] ++ b,
            (videoUnit ⟨[0, 0, 0, 1, 0x09, 0, 0, 0, 0, 0, 0, 0, 2, 0x0a, 0x0b],
              []⟩ 7).OutputPresentationTimestamp.CMTimeValue, 0⟩)) },
        Completion.returned none)) ∧
    writeNalus New (videoUnit ⟨[0, 0, 0, 1, 0x09, 0, 0, 0, 0, 0, 0, 0, 2, 0x0a, 0x0b], []⟩ 7) =
      ({ New with videoAppSrc := (New.videoAppSrc ++
          [[0x09], [], [0x0a, 0x0b]].map (fun b => ⟨[0, 0, 0, 1] ++ b,
            (videoUnit ⟨[0, 0, 0, 1, 0x09, 0, 0, 0, 0, 0, 0, 0, 2, 0x0a, 0x0b],
              []⟩ 7).OutputPresentationTimestamp.CMTimeValue, 0⟩)) },
        Completion.returned none) ∧
    (deliveredVideo New
      (writeNalus New
        (videoUnit ⟨[0, 0, 0, 1, 0x09, 0, 0, 0, 0, 0, 0, 0, 2, 0x0a, 0x0b], []⟩ 7)).1).length
      = [[0x09], [], [0x0a, 0x0b]].length ∧
    ([[0x09], [], [0x0a, 0x0b]] = ([] : List (List UInt8)) →
      deliveredVideo New
        (writeNalus New
          (videoUnit ⟨[0, 0, 0, 1, 0x09, 0, 0, 0, 0, 0, 0, 0, 2, 0x0a, 0x0b], []⟩ 7)).1 = []) :=
  C10_reframing_loop_terminates New
    (videoUnit ⟨[0, 0, 0, 1, 0x09, 0, 0, 0, 0, 0, 0, 0, 2, 0x0a, 0x0b], []⟩ 7)
    [[0x09], [], [0x0a, 0x0b]] (by decide) (by decide)

/-- C10 as stated fails: on the well-formed payload holding one record of
`2 ^ 32 - 4` bytes the first iteration panics, so the loop neither shortens the
slice nor emits the one frame of the one record. -/
theorem C10_huge_record_counterexample :
    hugePayload.data = encodeRecords [hugeBody] ∧ hugeBody.length < 2 ^ 32 ∧
    writeNalus New (videoUnit hugePayload 100) = (New, Completion.panicked) ∧
    (deliveredVideo New (writeNalus New (videoUnit hugePayload 100)).1).length
      ≠ [hugeBody].length := by
  have h : writeNalus New (videoUnit hugePayload 100) = (New, Completion.panicked) :=
    writeNalus_wrap New (videoUnit hugePayload 100) 4294967292 (hugeBody ++ []) hugePayload_data
      (by decide) (by decide)
  refine ⟨rfl, by rw [hugeBody_length]; decide, h, ?_⟩
  rw [h]
  decide

end gstadapter
